import Mathlib

/-!
Shallow embedding of the Intcode virtual machine from `src/intcode/src/lib.rs`
(repository Juzley/adventofcode2019), together with theorems settling the
frozen claims about it.

Modelling conventions:
* `i64` values are `Int`; wrapping 64-bit arithmetic is made explicit with
  `wrap64` (release-mode Rust semantics, and the spec states arithmetic is
  unchecked).
* `usize` casts of `i64` values (`as usize`) wrap modulo `2^64`: `toUsize`.
* Rust `%` on `i64` is truncated remainder (`Int.tmod`), `/` is truncated
  division (`Int.tdiv`).
* A Rust `panic!` (unknown opcode, out-of-bounds `Vec` index, write in direct
  mode) is the `panic` constructor carrying the message; no program state
  survives a panic, but output-callback side effects that already happened do,
  so the I/O trace is carried along.
* The `FnMut() -> i64` input callback is a stream `Nat → Int` together with a
  count of calls made so far; the output callback is an accumulating list.
* `execute_ex` takes `&self` and loops on a clone; the embedding threads the
  borrowed receiver `s` and the clone `prg` separately, so that the loop
  condition reads `s` (as the source does: `self.mem.len()`, `self.halted`)
  while `step` acts on `prg`. Rust's loop can fail to terminate, so the
  embedding is fuel-indexed, with an `outOfFuel` result meaning the loop is
  still running after that many iterations.
-/

namespace Intcode

inductive Operation
  | ADD | MUL | IN | OUT | JIT | JIF | LT | EQ | BASE | HALT
  deriving DecidableEq

inductive ParameterMode
  | POSITION | DIRECT | RELATIVE
  deriving DecidableEq

structure Instruction where
  op : Operation
  params : List Int
  param_modes : List ParameterMode
  deriving DecidableEq

structure Program where
  name : String
  mem : List Int
  mem_offset : Int
  instruction_index : Nat
  output : Option Int
  halted : Bool
  deriving DecidableEq

/-- State of the two callbacks across a run: how many times the input
callback has been invoked, and the values passed to the output callback. -/
structure IOState where
  inCount : Nat
  outs : List Int
  deriving DecidableEq

/-- Cast `v as usize` of an `i64` value: two's-complement wrap modulo `2^64`. -/
def toUsize (v : Int) : Nat := (v % (2 : Int) ^ 64).toNat

/-- Wrap an integer into the `i64` range (two's complement). -/
def wrap64 (v : Int) : Int := (v + 2 ^ 63) % 2 ^ 64 - 2 ^ 63

/-- Wrapping `i64` addition (release-mode Rust: wrapping). -/
def i64add (a b : Int) : Int := wrap64 (a + b)

/-- Wrapping `i64` multiplication (release-mode Rust: wrapping). -/
def i64mul (a b : Int) : Int := wrap64 (a * b)

/-- Indexing `buf[index]` into a `Vec<i64>`: panics when the index is out of bounds. -/
def vecGet (buf : List Int) (index : Nat) : Except String Int :=
  if h : index < buf.length then .ok buf[index] else .error "index out of bounds"

/-- Lines 101-104 of `read`: fetching one cell at a resolved address; an
address at or beyond the current length yields 0 without growing memory. -/
def memFetch (mem : List Int) (addr : Nat) : Int :=
  if addr ≥ mem.length then 0 else mem.getD addr 0

/-- Lines 114-117 of `write`: storing one cell at a resolved address; an
address at or beyond the current length first extends memory with zero-filled
cells up to and including that address (`resize(addr + 1, 0)`). -/
def memStore (mem : List Int) (addr : Nat) (value : Int) : List Int :=
  let mem' := if addr ≥ mem.length then mem ++ List.replicate (addr + 1 - mem.length) 0 else mem
  mem'.set addr value

/-- The function `read(mem, param, param_mode, base)` from the source. -/
def read (mem : List Int) (param : Int) (param_mode : ParameterMode) (base : Int) : Int :=
  match param_mode with
  | .DIRECT => param
  | .POSITION => memFetch mem (toUsize param)
  | .RELATIVE => memFetch mem (toUsize (i64add param base))

/-- The function `write(mem, value, position, param_mode, base)` from the source;
writing in direct mode panics. -/
def write (mem : List Int) (value : Int) (position : Int) (param_mode : ParameterMode)
    (base : Int) : Except String (List Int) :=
  match param_mode with
  | .DIRECT => .error "Attempt to write in direct mode"
  | .POSITION => .ok (memStore mem (toUsize position) value)
  | .RELATIVE => .ok (memStore mem (toUsize (i64add position base)) value)

/-- The closure `get_param_mode` in `Instruction::new`: the decimal digit of
the raw opcode cell at position `slot + 2`; 1 is direct, 2 is relative, and
every other digit falls through to position mode. -/
def get_param_mode (cell : Int) (slot : Nat) : ParameterMode :=
  let d := (cell.tdiv ((10 : Int) ^ (slot + 2))).tmod 10
  if d = 1 then .DIRECT else if d = 2 then .RELATIVE else .POSITION

/-- The opcode match in `Instruction::new`: the low two decimal digits of the
raw cell select the operation and its parameter count; anything else panics
with an unknown-opcode message. -/
def opFromRaw (raw : Int) : Except String (Operation × Nat) :=
  if raw = 1 then .ok (.ADD, 3)
  else if raw = 2 then .ok (.MUL, 3)
  else if raw = 3 then .ok (.IN, 1)
  else if raw = 4 then .ok (.OUT, 1)
  else if raw = 5 then .ok (.JIT, 2)
  else if raw = 6 then .ok (.JIF, 2)
  else if raw = 7 then .ok (.LT, 3)
  else if raw = 8 then .ok (.EQ, 3)
  else if raw = 9 then .ok (.BASE, 1)
  else if raw = 99 then .ok (.HALT, 0)
  else .error ("Unknown opcode: " ++ toString raw)

/-- The fixed parameter count of each operation, as paired with it in the
opcode match of `Instruction::new`. -/
def paramCount : Operation → Nat
  | .ADD => 3 | .MUL => 3 | .IN => 1 | .OUT => 1 | .JIT => 2
  | .JIF => 2 | .LT => 3 | .EQ => 3 | .BASE => 1 | .HALT => 0

/-- The parameter-reading loop of `Instruction::new`: `buf[index + i + 1]`
for `i` in `0..count`, panicking at the first out-of-bounds access. -/
def readParams (buf : List Int) (index : Nat) : Nat → Except String (List Int)
  | 0 => .ok []
  | n + 1 =>
    match readParams buf index n, vecGet buf (index + n + 1) with
    | .ok ps, .ok v => .ok (ps ++ [v])
    | .error m, _ => .error m
    | .ok _, .error m => .error m

/-- Decoding, `Instruction::new(buf, index)`: reads the raw cell (panicking if `index`
is out of bounds), matches the opcode (panicking if unknown), then collects
the parameters and their modes. -/
def Instruction.new (buf : List Int) (index : Nat) : Except String Instruction :=
  match vecGet buf index with
  | .error m => .error m
  | .ok cell =>
    match opFromRaw (cell.tmod 100) with
    | .error m => .error m
    | .ok (op, param_count) =>
      match readParams buf index param_count with
      | .error m => .error m
      | .ok params =>
        .ok { op := op, params := params,
              param_modes := (List.range param_count).map (get_param_mode cell) }

/-- Result of one `step` call: `ok` is `Ok(())`, `haltErr` is
`Err(ExecutionError::ProgramHalt)` (the only `ExecutionError` variant), and
`panic` is a Rust panic unwinding out of `step`. The callback state is
carried in every case because callback side effects are observable even when
the call then panics. -/
inductive StepOut
  | ok (p : Program) (io : IOState)
  | haltErr (p : Program) (io : IOState)
  | panic (msg : String) (io : IOState)
  deriving DecidableEq

/-- The callback state carried by a step result. -/
def StepOut.ioOf : StepOut → IOState
  | .ok _ io => io
  | .haltErr _ io => io
  | .panic _ io => io

/-- Lines 220-221 of `step`: advance the instruction pointer past the opcode
cell and clear the stored output, before dispatching on the operation. -/
def afterFetch (p : Program) : Program :=
  { p with instruction_index := p.instruction_index + 1, output := none }

/-- The `binary_op` closure in `step`: read the first two parameters, write
the combined value through the third, advance the pointer by the three
parameter cells. -/
def stepBinary (q : Program) (io : IOState) (instruction : Instruction)
    (f : Int → Int → Int) : StepOut :=
  let v1 := read q.mem (instruction.params.getD 0 0) (instruction.param_modes.getD 0 .POSITION)
      q.mem_offset
  let v2 := read q.mem (instruction.params.getD 1 0) (instruction.param_modes.getD 1 .POSITION)
      q.mem_offset
  match write q.mem (f v1 v2) (instruction.params.getD 2 0)
      (instruction.param_modes.getD 2 .POSITION) q.mem_offset with
  | .error m => .panic m io
  | .ok mem2 => .ok { q with mem := mem2, instruction_index := q.instruction_index + 3 } io

/-- Single-step execution, `Program::step`: decodes the instruction at the current pointer (note:
before checking the halted flag, exactly as the source does), rejects halted
programs, then executes one instruction. -/
def Program.step (inp : Nat → Int) (p : Program) (io : IOState) : StepOut :=
  match Instruction.new p.mem p.instruction_index with
  | .error m => .panic m io
  | .ok instruction =>
    if p.halted then .haltErr p io
    else
      let q := afterFetch p
      match instruction.op with
      | .ADD => stepBinary q io instruction i64add
      | .MUL => stepBinary q io instruction i64mul
      | .LT => stepBinary q io instruction (fun v1 v2 => if v1 < v2 then 1 else 0)
      | .EQ => stepBinary q io instruction (fun v1 v2 => if v1 = v2 then 1 else 0)
      | .IN =>
        let v := inp io.inCount
        let io2 : IOState := { io with inCount := io.inCount + 1 }
        match write q.mem v (instruction.params.getD 0 0)
            (instruction.param_modes.getD 0 .POSITION) q.mem_offset with
        | .error m => .panic m io2
        | .ok mem2 =>
          .ok { q with mem := mem2, instruction_index := q.instruction_index + 1 } io2
      | .OUT =>
        let v := read q.mem (instruction.params.getD 0 0)
            (instruction.param_modes.getD 0 .POSITION) q.mem_offset
        .ok { q with output := some v, instruction_index := q.instruction_index + 1 }
          { io with outs := io.outs ++ [v] }
      | .JIT =>
        let v := read q.mem (instruction.params.getD 0 0)
            (instruction.param_modes.getD 0 .POSITION) q.mem_offset
        let dst := read q.mem (instruction.params.getD 1 0)
            (instruction.param_modes.getD 1 .POSITION) q.mem_offset
        if v ≠ 0 then .ok { q with instruction_index := toUsize dst } io
        else .ok { q with instruction_index := q.instruction_index + 2 } io
      | .JIF =>
        let v := read q.mem (instruction.params.getD 0 0)
            (instruction.param_modes.getD 0 .POSITION) q.mem_offset
        let dst := read q.mem (instruction.params.getD 1 0)
            (instruction.param_modes.getD 1 .POSITION) q.mem_offset
        if v = 0 then .ok { q with instruction_index := toUsize dst } io
        else .ok { q with instruction_index := q.instruction_index + 2 } io
      | .BASE =>
        let v := read q.mem (instruction.params.getD 0 0)
            (instruction.param_modes.getD 0 .POSITION) q.mem_offset
        .ok { q with mem_offset := i64add q.mem_offset v,
                     instruction_index := q.instruction_index + 1 } io
      | .HALT => .haltErr { q with halted := true } io

/-- Result of `execute_ex` after a given amount of fuel: the loop exited
normally (`done`), a step panicked and the panic unwound out (`panicked`), or
the loop is still running (`outOfFuel`). `s` is the immutably borrowed
receiver `self`, `prg` the clone being stepped. -/
inductive ExecResult
  | done (s : Program) (prg : Program) (io : IOState)
  | panicked (msg : String) (s : Program) (io : IOState)
  | outOfFuel (s : Program) (prg : Program) (io : IOState)
  deriving DecidableEq

/-- The borrowed receiver as it stands when `execute_ex` returns (or as it
stands mid-loop, for `outOfFuel`). -/
def ExecResult.selfP : ExecResult → Program
  | .done s _ _ => s
  | .panicked _ s _ => s
  | .outOfFuel s _ _ => s

/-- The callback state of an `execute_ex` result. -/
def ExecResult.ioOf : ExecResult → IOState
  | .done _ _ io => io
  | .panicked _ _ io => io
  | .outOfFuel _ _ io => io

def ExecResult.isOutOfFuel : ExecResult → Bool
  | .outOfFuel _ _ _ => true
  | _ => false

/-- The `while` loop of `execute_ex`: the condition reads the receiver `s`
(`prg.instruction_index < self.mem.len() && !self.halted` — the source tests
the original's halted flag, not the clone's), the body steps the clone and
discards `Ok`/`Err` results (`let _ = prg.step(..)`); a panic propagates. -/
def execLoop (inp : Nat → Int) : Nat → Program → Program → IOState → ExecResult
  | 0, s, prg, io => .outOfFuel s prg io
  | fuel + 1, s, prg, io =>
    if prg.instruction_index < s.mem.length ∧ s.halted = false then
      match Program.step inp prg io with
      | .ok prg2 io2 => execLoop inp fuel s prg2 io2
      | .haltErr prg2 io2 => execLoop inp fuel s prg2 io2
      | .panic m io2 => .panicked m s io2
    else .done s prg io

/-- Run-to-completion, `Program::execute_ex`: clones the receiver and drives the clone through
the loop; each call starts with fresh callbacks. -/
def Program.execute_ex (inp : Nat → Int) (fuel : Nat) (p : Program) : ExecResult :=
  execLoop inp fuel p p ⟨0, []⟩

/-- The `Program` value built by `Program::from_str` after parsing: the given
memory image, zero relative base, pointer at 0, no output, not halted. -/
def mkProgram (mem : List Int) : Program :=
  { name := "", mem := mem, mem_offset := 0, instruction_index := 0,
    output := none, halted := false }

/-- A fixed input callback for closed statements. -/
def inp0 : Nat → Int := fun _ => 0

/-- The initial callback state of a run. -/
def io0 : IOState := ⟨0, []⟩

/-- The program `[99, 99]`: halt executes on the first step. -/
def leadingHalt : Program := mkProgram [99, 99]

/-- The clone's state after that first step: pointer 1, halted. -/
def leadingHaltStopped : Program :=
  { name := "", mem := [99, 99], mem_offset := 0, instruction_index := 1,
    output := none, halted := true }

/-- The wide-multiplication test program from day 9. -/
def largeMulProgram : Program := mkProgram [1102, 34915192, 34915192, 7, 4, 7, 99, 0]

/-- Its memory after the multiply has stored `34915192 * 34915192` at 7. -/
def lmMem : List Int := [1102, 34915192, 34915192, 7, 4, 7, 99, 1219070632396864]

def lmAfterMul : Program := ⟨"", lmMem, 0, 4, none, false⟩

def lmAfterOut : Program := ⟨"", lmMem, 0, 6, some 1219070632396864, false⟩

def lmAfterHalt : Program := ⟨"", lmMem, 0, 7, none, true⟩

/-- Callback state once the product has been emitted. -/
def lmEmitted : IOState := ⟨0, [1219070632396864]⟩

/-- Casting a nonnegative `i64`-range value to `usize` is the identity. -/
theorem toUsize_of_nonneg (v : Int) (h0 : 0 ≤ v) (h1 : v < 2 ^ 64) :
    (toUsize v : Int) = v := by
  unfold toUsize
  rw [Int.emod_eq_of_lt h0 h1, Int.toNat_of_nonneg h0]

-- Sanity checks of the embedding against the decode and step behaviour of
-- the source (small concrete instructions).
example : Instruction.new [1002, 4, 3, 4, 33] 0 =
    .ok ⟨.MUL, [4, 3, 4], [.POSITION, .DIRECT, .POSITION]⟩ := by rfl
example : Instruction.new [99] 0 = .ok ⟨.HALT, [], []⟩ := by rfl
example : Instruction.new [98] 0 = .error "Unknown opcode: 98" := by rfl
example : Instruction.new [99] 1 = .error "index out of bounds" := by rfl
example : memStore [1, 2] 4 7 = [1, 2, 0, 0, 7] := by decide
example : toUsize (-1) = 18446744073709551615 := by decide

-- End-to-end fidelity checks against the source's own test programs. The
-- day-5 I/O program echoes its input and exits cleanly (its halt sits at the
-- end of memory, so the loop condition fails right after the halt step).
example :
    (Program.execute_ex (fun _ => 1) 10 (mkProgram [3, 0, 4, 0, 99])).ioOf.outs = [1] := by rfl

-- The day-9 quine (relative base, relative reads and writes, memory growth)
-- emits its own source and exits cleanly.
set_option maxRecDepth 10000 in
example :
    (Program.execute_ex inp0 100
      (mkProgram [109, 1, 204, -1, 1001, 100, 1, 100, 1008, 100, 16, 101, 1006, 101, 0, 99])).ioOf.outs =
    [109, 1, 204, -1, 1001, 100, 1, 100, 1008, 100, 16, 101, 1006, 101, 0, 99] := by rfl

-- The day-5 equality-test program emits its output and then crashes: after
-- the mid-memory halt the loop (testing the original's flag) steps the
-- halted clone once more, and decode reads past the end of memory.
example :
    Program.execute_ex (fun _ => 8) 10 (mkProgram [3, 9, 8, 9, 10, 9, 4, 9, 99, -1, 8]) =
      .panicked "index out of bounds" (mkProgram [3, 9, 8, 9, 10, 9, 4, 9, 99, -1, 8])
        ⟨1, [1]⟩ := by rfl

/-- C5: a read at a nonnegative address at or beyond the current memory
length returns 0 (and, being a pure function of the memory, cannot change its
length); a write of `v` there first extends memory with zero-filled cells up
to and including that address and then stores `v`, so a subsequent read at
that address returns `v`, and a read at any address between the old length
and the written address returns 0. -/
theorem memory_growth (mem : List Int) (a : Nat) (v : Int) (h : mem.length ≤ a) :
    memFetch mem a = 0 ∧
    (memStore mem a v).length = a + 1 ∧
    memFetch (memStore mem a v) a = v ∧
    ∀ b, mem.length ≤ b → b < a → memFetch (memStore mem a v) b = 0 := by
  have hge : a ≥ mem.length := h
  have hext : (mem ++ List.replicate (a + 1 - mem.length) 0).length = a + 1 := by
    simp only [List.length_append, List.length_replicate]
    omega
  refine ⟨?_, ?_, ?_, ?_⟩
  · simp [memFetch, hge]
  · simp only [memStore, if_pos hge, List.length_set]
    exact hext
  · have hlt : a < (mem ++ List.replicate (a + 1 - mem.length) 0).length := by omega
    simp only [memStore, memFetch, if_pos hge, List.length_set,
      List.getD_eq_getElem?_getD, List.getElem?_set_self hlt]
    rw [if_neg (by omega)]
    rfl
  · intro b hb1 hb2
    have hne : a ≠ b := by omega
    simp only [memStore, memFetch, if_pos hge, List.length_set,
      List.getD_eq_getElem?_getD, List.getElem?_set_ne hne]
    rw [if_neg (by omega), List.getElem?_append_right hb1,
      List.getElem?_replicate_of_lt (by omega)]
    rfl

/-- Witness for `memory_growth` at memory `[1, 2]`, address 4, value 7,
intermediate address 2. -/
theorem memory_growth_witness :
    ([1, 2] : List Int).length ≤ 4 ∧
    memFetch [1, 2] 4 = 0 ∧ (memStore [1, 2] 4 7).length = 4 + 1 ∧
    memFetch (memStore [1, 2] 4 7) 4 = 7 ∧ memFetch (memStore [1, 2] 4 7) 2 = 0 := by
  have h := memory_growth [1, 2] 4 7 (by decide)
  exact ⟨by decide, h.1, h.2.1, h.2.2.1, h.2.2.2 2 (by decide) (by decide)⟩

/-- C3 counterexample: the instruction cell 303 has digit 3 at decimal
position 2 (the mode slot of its single parameter), yet decoding `[303, 0]`
at index 0 succeeds, assigning position mode, rather than failing with a
decode error. -/
theorem mode_digit_three_decodes :
    Instruction.new [303, 0] 0 = .ok ⟨.IN, [0], [.POSITION]⟩ ∧
    (((303 : Int).tdiv ((10 : Int) ^ (0 + 2))).tmod 10 = 3) := ⟨rfl, rfl⟩

/-- C3 (amended): a mode digit that is neither 0, 1 nor 2 does not fail
decoding; it falls through to position mode, exactly like digit 0. -/
theorem get_param_mode_other_digit (cell : Int) (slot : Nat)
    (_h0 : (cell.tdiv ((10 : Int) ^ (slot + 2))).tmod 10 ≠ 0)
    (h1 : (cell.tdiv ((10 : Int) ^ (slot + 2))).tmod 10 ≠ 1)
    (h2 : (cell.tdiv ((10 : Int) ^ (slot + 2))).tmod 10 ≠ 2) :
    get_param_mode cell slot = .POSITION := by
  unfold get_param_mode
  simp only [if_neg h1, if_neg h2]

/-- Witness for `get_param_mode_other_digit` at cell 303, slot 0. -/
theorem get_param_mode_other_digit_witness :
    (((303 : Int).tdiv ((10 : Int) ^ (0 + 2))).tmod 10 ≠ 0 ∧
     ((303 : Int).tdiv ((10 : Int) ^ (0 + 2))).tmod 10 ≠ 1 ∧
     ((303 : Int).tdiv ((10 : Int) ^ (0 + 2))).tmod 10 ≠ 2) ∧
    get_param_mode 303 0 = .POSITION :=
  ⟨⟨by decide, by decide, by decide⟩,
   get_param_mode_other_digit 303 0 (by decide) (by decide) (by decide)⟩

/-- C4 counterexample: stepping the program `[0]` (raw opcode 0, not a known
opcode) does not produce an error result carried back to the caller — it
panics, aborting with an unknown-opcode message; there is no resulting
program state, so no halted flag is set. -/
theorem unknown_opcode_panics_cex :
    Program.step inp0 (mkProgram [0]) io0 = .panic "Unknown opcode: 0" io0 := rfl

/-- C4 (amended): a raw opcode cell whose low two digits match no known
opcode makes `step` panic with the unknown-opcode message — an unrecoverable
crash rather than a returned error value — leaving the callback state
untouched; no program state survives the panic, so the halted flag is not
set. -/
theorem step_unknown_opcode_panics (inp : Nat → Int) (p : Program) (io : IOState)
    (cell : Int) (m : String)
    (hc : vecGet p.mem p.instruction_index = .ok cell)
    (hop : opFromRaw (cell.tmod 100) = .error m) :
    Program.step inp p io = .panic m io := by
  unfold Program.step Instruction.new
  rw [hc]
  simp only [hop]

/-- Witness for `step_unknown_opcode_panics` at the program `[0]`. -/
theorem step_unknown_opcode_panics_witness :
    vecGet [0] 0 = .ok 0 ∧ opFromRaw ((0 : Int).tmod 100) = .error "Unknown opcode: 0" ∧
    Program.step inp0 (mkProgram [0]) io0 = .panic "Unknown opcode: 0" io0 :=
  ⟨rfl, rfl, step_unknown_opcode_panics inp0 (mkProgram [0]) io0 0 "Unknown opcode: 0" rfl rfl⟩

/-- C1: evaluation at the failing input `[99]`. The first `step` executes the
halt opcode and returns the halted-program error; the second `step`, instead
of returning the halted-program error without doing anything, decodes the
cell after the halt (decode happens before the halted check) and panics with
an out-of-bounds index. -/
theorem step_after_halt_panics :
    Program.step inp0 (mkProgram [99]) io0 =
      .haltErr { name := "", mem := [99], mem_offset := 0, instruction_index := 1,
                 output := none, halted := true } io0 ∧
    Program.step inp0
      { name := "", mem := [99], mem_offset := 0, instruction_index := 1,
        output := none, halted := true } io0 = .panic "index out of bounds" io0 :=
  ⟨rfl, rfl⟩

/-- C10: the step that itself executes opcode 99 sets the halted flag,
advances the pointer past the opcode cell, and returns the halted-program
error — the same `Err(ProgramHalt)` value that a step on an already-halted
program (whose decode succeeds) returns, so the caller cannot tell the two
apart from the step result alone. -/
theorem halt_step_indistinguishable (inp : Nat → Int) (p : Program) (io : IOState)
    (instr : Instruction)
    (hd : Instruction.new p.mem p.instruction_index = .ok instr)
    (hh : p.halted = false) (hop : instr.op = .HALT) :
    Program.step inp p io =
      .haltErr
        { p with
          instruction_index := p.instruction_index + 1, output := none, halted := true }
        io ∧
    ∀ (inp2 : Nat → Int) (q : Program) (io2 : IOState) (instr2 : Instruction),
      q.halted = true → Instruction.new q.mem q.instruction_index = .ok instr2 →
      Program.step inp2 q io2 = .haltErr q io2 := by
  constructor
  · unfold Program.step
    rw [hd]
    simp only [hh, Bool.false_eq_true, if_false, hop, afterFetch]
  · intro inp2 q io2 instr2 hq hd2
    unfold Program.step
    rw [hd2]
    simp only [hq, if_true]

/-- Witness for `halt_step_indistinguishable`: program `[99]` for the halt
execution, and a halted state over `[99, 99]` (whose decode succeeds) for the
already-halted call; both calls return the same kind of result. -/
theorem halt_step_indistinguishable_witness :
    Instruction.new [99] 0 = .ok ⟨.HALT, [], []⟩ ∧ (mkProgram [99]).halted = false ∧
    Program.step inp0 (mkProgram [99]) io0 =
      .haltErr { name := "", mem := [99], mem_offset := 0, instruction_index := 1,
                 output := none, halted := true } io0 ∧
    Program.step inp0
      { name := "", mem := [99, 99], mem_offset := 0, instruction_index := 1,
        output := none, halted := true } io0 =
      .haltErr { name := "", mem := [99, 99], mem_offset := 0, instruction_index := 1,
                 output := none, halted := true } io0 := by
  have h := halt_step_indistinguishable inp0 (mkProgram [99]) io0 ⟨.HALT, [], []⟩ rfl rfl rfl
  exact ⟨rfl, rfl, h.1, h.2 inp0 _ io0 ⟨.HALT, [], []⟩ rfl rfl⟩

/-- C7: in one step call on a non-halted program, the input callback is
invoked exactly once when the decoded opcode is 3 and never otherwise, and
the output callback receives exactly one value when the decoded opcode is 4
and nothing otherwise (so each is invoked at most once per step); when decode
fails no callback runs at all. -/
theorem step_callback_discipline (inp : Nat → Int) (p : Program) (io : IOState)
    (hh : p.halted = false) :
    (∀ m, Instruction.new p.mem p.instruction_index = .error m →
       (Program.step inp p io).ioOf = io) ∧
    (∀ instr, Instruction.new p.mem p.instruction_index = .ok instr →
       (instr.op = .IN →
          (Program.step inp p io).ioOf = { io with inCount := io.inCount + 1 }) ∧
       (instr.op ≠ .IN → (Program.step inp p io).ioOf.inCount = io.inCount) ∧
       (instr.op = .OUT →
          ∃ v, (Program.step inp p io).ioOf = { io with outs := io.outs ++ [v] }) ∧
       (instr.op ≠ .OUT → (Program.step inp p io).ioOf.outs = io.outs)) := by
  constructor
  · intro m hm
    unfold Program.step
    rw [hm]
    rfl
  · intro instr hi
    unfold Program.step
    rw [hi]
    simp only [hh, Bool.false_eq_true, if_false]
    obtain ⟨op, params, modes⟩ := instr
    refine ⟨fun hop => ?_, fun hop => ?_, fun hop => ?_, fun hop => ?_⟩ <;>
      cases op <;> simp at hop <;>
        first
          | rfl
          | exact ⟨_, rfl⟩
          | (dsimp only [stepBinary]; split <;> rfl)

/-- Witness for `step_callback_discipline` at the program `[3, 0, 99]`,
whose first instruction is opcode 3: the input callback runs exactly once
and the output callback not at all. -/
theorem step_callback_discipline_witness :
    (mkProgram [3, 0, 99]).halted = false ∧
    Instruction.new [3, 0, 99] 0 = .ok ⟨.IN, [0], [.POSITION]⟩ ∧
    (Program.step inp0 (mkProgram [3, 0, 99]) io0).ioOf =
      { io0 with inCount := io0.inCount + 1 } := by
  have h := step_callback_discipline inp0 (mkProgram [3, 0, 99]) io0 rfl
  exact ⟨rfl, rfl, (h.2 ⟨.IN, [0], [.POSITION]⟩ rfl).1 rfl⟩

/-- C8 counterexample: executing jump-if-true with a negative jump target.
The program `[1105, 1, -1, 99]` decodes to jump-if-true with immediate
parameters 1 and -1; since read(p1) = 1 ≠ 0 the claim says the instruction
pointer becomes read(p2) = -1, but the pointer (a `usize`) becomes the
two's-complement wrap `2^64 - 1`, which is not -1. -/
theorem jit_negative_target_cex :
    Program.step inp0 (mkProgram [1105, 1, -1, 99]) io0 =
      .ok { name := "", mem := [1105, 1, -1, 99], mem_offset := 0,
            instruction_index := 18446744073709551615, output := none, halted := false }
        io0 ∧
    read [1105, 1, -1, 99] (-1) .DIRECT 0 = -1 ∧
    (18446744073709551615 : Int) ≠ -1 := ⟨rfl, rfl, by decide⟩

/-- C8 (amended): for a decoded jump-if-true (opcode 5), when read(p1) ≠ 0
the instruction pointer becomes read(p2) cast to `usize` (wrapping modulo
`2^64`; equal to read(p2) whenever that value is in the nonnegative `usize`
range), otherwise it advances by the instruction's total width 3; every
decoded non-jump instruction that finishes without panicking advances the
pointer by 1 plus its fixed parameter count. -/
theorem step_ip_update (inp : Nat → Int) (p : Program) (io : IOState) (instr : Instruction)
    (hd : Instruction.new p.mem p.instruction_index = .ok instr)
    (hh : p.halted = false) :
    (instr.op = .JIT →
      ((read p.mem (instr.params.getD 0 0) (instr.param_modes.getD 0 .POSITION)
          p.mem_offset ≠ 0 →
        ∃ p', Program.step inp p io = .ok p' io ∧
          p'.instruction_index =
            toUsize (read p.mem (instr.params.getD 1 0) (instr.param_modes.getD 1 .POSITION)
              p.mem_offset) ∧
          (0 ≤ read p.mem (instr.params.getD 1 0) (instr.param_modes.getD 1 .POSITION)
              p.mem_offset →
           read p.mem (instr.params.getD 1 0) (instr.param_modes.getD 1 .POSITION)
              p.mem_offset < 2 ^ 64 →
           (p'.instruction_index : Int) =
             read p.mem (instr.params.getD 1 0) (instr.param_modes.getD 1 .POSITION)
               p.mem_offset)) ∧
       (read p.mem (instr.params.getD 0 0) (instr.param_modes.getD 0 .POSITION)
          p.mem_offset = 0 →
        ∃ p', Program.step inp p io = .ok p' io ∧
          p'.instruction_index = p.instruction_index + 3))) ∧
    (instr.op ≠ .JIT → instr.op ≠ .JIF →
      ∀ p' io', Program.step inp p io = .ok p' io' ∨ Program.step inp p io = .haltErr p' io' →
        p'.instruction_index = p.instruction_index + 1 + paramCount instr.op) := by
  unfold Program.step
  rw [hd]
  simp only [hh, Bool.false_eq_true, if_false]
  obtain ⟨op, params, modes⟩ := instr
  constructor
  · intro hop
    cases op <;> simp at hop
    constructor
    · intro hv
      dsimp only
      rw [if_pos (by exact hv)]
      refine ⟨_, rfl, rfl, fun h0 h1 => ?_⟩
      exact toUsize_of_nonneg _ h0 h1
    · intro hv
      dsimp only
      rw [if_neg (fun h => h hv)]
      exact ⟨_, rfl, rfl⟩
  · intro h5 h6 p' io' hor
    cases op
    case JIT => exact absurd rfl h5
    case JIF => exact absurd rfl h6
    all_goals
      cases hor with
      | inl heq =>
        dsimp only [stepBinary, afterFetch] at heq
        first
          | (split at heq <;> cases heq <;> simp [paramCount, Nat.add_assoc])
          | (cases heq <;> simp [paramCount, Nat.add_assoc])
      | inr heq =>
        dsimp only [stepBinary, afterFetch] at heq
        first
          | (split at heq <;> cases heq)
          | (cases heq <;> simp [paramCount, Nat.add_assoc])

/-- Witness for `step_ip_update` at the program `[1105, 1, 5, 99]` (jump
taken, nonnegative target 5). -/
theorem step_ip_update_witness :
    Instruction.new [1105, 1, 5, 99] 0 = .ok ⟨.JIT, [1, 5], [.DIRECT, .DIRECT]⟩ ∧
    (mkProgram [1105, 1, 5, 99]).halted = false ∧
    read [1105, 1, 5, 99] 1 .DIRECT 0 ≠ 0 ∧
    ∃ p', Program.step inp0 (mkProgram [1105, 1, 5, 99]) io0 = .ok p' io0 ∧
      p'.instruction_index = toUsize (read [1105, 1, 5, 99] 5 .DIRECT 0) ∧
      (0 ≤ read [1105, 1, 5, 99] 5 .DIRECT 0 →
       read [1105, 1, 5, 99] 5 .DIRECT 0 < 2 ^ 64 →
       (p'.instruction_index : Int) = read [1105, 1, 5, 99] 5 .DIRECT 0) := by
  have h := step_ip_update inp0 (mkProgram [1105, 1, 5, 99]) io0
      ⟨.JIT, [1, 5], [.DIRECT, .DIRECT]⟩ rfl rfl
  exact ⟨rfl, rfl, by decide, (h.1 rfl).1 (by decide)⟩

/-- One unfolding of the `execute_ex` loop when its condition (read from the
borrowed receiver `s`) holds. -/
theorem execLoop_iter (inp : Nat → Int) (fuel : Nat) (s prg : Program) (io : IOState)
    (hc : prg.instruction_index < s.mem.length ∧ s.halted = false) :
    execLoop inp (fuel + 1) s prg io =
      match Program.step inp prg io with
      | .ok prg2 io2 => execLoop inp fuel s prg2 io2
      | .haltErr prg2 io2 => execLoop inp fuel s prg2 io2
      | .panic m io2 => .panicked m s io2 := by
  rw [execLoop, if_pos hc]

/-- Once the clone of `[99, 99]` has halted at pointer 1, the loop spins
forever: the condition reads the original's never-changing halted flag and
the original's length 2, and each step returns the halted error, changing
nothing. -/
theorem execLoop_stuck (inp : Nat → Int) (fuel : Nat) (io : IOState) :
    execLoop inp fuel leadingHalt leadingHaltStopped io =
      .outOfFuel leadingHalt leadingHaltStopped io := by
  induction fuel with
  | zero => rfl
  | succ n ih =>
    rw [execLoop_iter inp n leadingHalt leadingHaltStopped io ⟨by decide, rfl⟩]
    have hstep : Program.step inp leadingHaltStopped io = .haltErr leadingHaltStopped io := rfl
    rw [hstep]
    exact ih

/-- C2: evaluation at the failing input `[99, 99]`. Execution reaches the
halt opcode on the very first step, yet `execute_ex` never terminates for
any amount of fuel: the loop condition tests the original program's halted
flag (which an `&self` borrow can never change) instead of the clone's, and
the clone's pointer 1 stays below the original's length 2 forever. -/
theorem execute_ex_diverges_after_halt (inp : Nat → Int) (fuel : Nat) :
    (Program.execute_ex inp fuel leadingHalt).isOutOfFuel = true := by
  cases fuel with
  | zero => rfl
  | succ n =>
    show (execLoop inp (n + 1) leadingHalt leadingHalt io0).isOutOfFuel = true
    rw [execLoop_iter inp n leadingHalt leadingHalt io0 ⟨by decide, rfl⟩]
    have hstep : Program.step inp leadingHalt io0 = .haltErr leadingHaltStopped io0 := rfl
    rw [hstep]
    show (execLoop inp n leadingHalt leadingHaltStopped io0).isOutOfFuel = true
    rw [execLoop_stuck]
    rfl

/-- C9: evaluation at the failing input. With any input callback, running
`[1102,34915192,34915192,7,4,7,99,0]` emits the single output
`34915192 * 34915192 = 1219070632396864`, computed exactly (the product is
within `i64` range, so the wrapping multiply is exact multiplication) — but
`execute_ex` then panics with an unknown-opcode message while decoding the
cell after the halt (the product's low digits, 64), instead of returning
cleanly; the repo's own `large_mul` test crashes there. -/
theorem large_mul_run (inp : Nat → Int) (n : Nat) :
    Program.execute_ex inp (n + 4) largeMulProgram =
      .panicked "Unknown opcode: 64" largeMulProgram ⟨0, [1219070632396864]⟩ ∧
    i64mul 34915192 34915192 = 34915192 * 34915192 := by
  refine ⟨?_, by decide⟩
  have s1 : Program.step inp largeMulProgram io0 = .ok lmAfterMul io0 := rfl
  have s2 : Program.step inp lmAfterMul io0 = .ok lmAfterOut lmEmitted := rfl
  have s3 : Program.step inp lmAfterOut lmEmitted = .haltErr lmAfterHalt lmEmitted := rfl
  have s4 : Program.step inp lmAfterHalt lmEmitted = .panic "Unknown opcode: 64" lmEmitted := rfl
  show execLoop inp (n + 4) largeMulProgram largeMulProgram io0 = _
  rw [show n + 4 = (n + 3) + 1 by omega,
      execLoop_iter inp (n + 3) _ _ _ ⟨by decide, rfl⟩, s1]
  show execLoop inp (n + 3) largeMulProgram lmAfterMul io0 = _
  rw [show n + 3 = (n + 2) + 1 by omega,
      execLoop_iter inp (n + 2) _ _ _ ⟨by decide, rfl⟩, s2]
  show execLoop inp (n + 2) largeMulProgram lmAfterOut lmEmitted = _
  rw [show n + 2 = (n + 1) + 1 by omega,
      execLoop_iter inp (n + 1) _ _ _ ⟨by decide, rfl⟩, s3]
  show execLoop inp (n + 1) largeMulProgram lmAfterHalt lmEmitted = _
  rw [execLoop_iter inp n _ _ _ ⟨by decide, rfl⟩, s4]
  rfl

/-- The loop of `execute_ex` only ever reads the borrowed receiver: whatever
happens to the clone, the receiver component of the result is the receiver
it started with. -/
theorem execLoop_selfP (inp : Nat → Int) (fuel : Nat) :
    ∀ (s prg : Program) (io : IOState), (execLoop inp fuel s prg io).selfP = s := by
  induction fuel with
  | zero => intro s prg io; rfl
  | succ n ih =>
    intro s prg io
    rw [execLoop]
    split
    · cases hstep : Program.step inp prg io with
      | ok p2 io2 => exact ih s p2 io2
      | haltErr p2 io2 => exact ih s p2 io2
      | panic m io2 => rfl
    · rfl

/-- C6: `execute_ex` leaves the original Program — its memory, instruction
pointer, relative base and halted flag — unchanged, and a second
run-to-completion on the program as left by a first run (with any other
input stream and fuel) is identical to a run from the freshly constructed
state: nothing leaks from one run into the next. -/
theorem execute_ex_no_interference (inp1 inp2 : Nat → Int) (fuel1 fuel2 : Nat) (p : Program) :
    (Program.execute_ex inp1 fuel1 p).selfP = p ∧
    (Program.execute_ex inp1 fuel1 p).selfP.mem = p.mem ∧
    (Program.execute_ex inp1 fuel1 p).selfP.instruction_index = p.instruction_index ∧
    (Program.execute_ex inp1 fuel1 p).selfP.mem_offset = p.mem_offset ∧
    (Program.execute_ex inp1 fuel1 p).selfP.halted = p.halted ∧
    Program.execute_ex inp2 fuel2 ((Program.execute_ex inp1 fuel1 p).selfP) =
      Program.execute_ex inp2 fuel2 p := by
  have h : (Program.execute_ex inp1 fuel1 p).selfP = p := execLoop_selfP inp1 fuel1 p p ⟨0, []⟩
  exact ⟨h, by rw [h], by rw [h], by rw [h], by rw [h], by rw [h]⟩

end Intcode
